import Mathlib

/-
  Verification of the request-construction and response-decoding pipeline of
  the whatsapp client library (file src/http.go), against its
  natural-language specification.

  The Go code is shallowly embedded: pure fragments become Lean functions,
  the stateful parts (header maps, the dispatcher) become explicit state
  passing, and the outcome of `Send` (including the possibility of a runtime
  panic) is an explicit sum type.  JSON bytes are modelled as Lean strings
  together with an executable JSON parser and renderer covering the JSON
  subset exchanged by this API (objects, arrays, strings with the standard
  escapes, integers, booleans, null).
-/

namespace WA

/-! ## JSON values

A small executable JSON model.  It is used (a) to model what
`encoding/json.Marshal` produces for the envelope structs, and (b) to model
what `json.Unmarshal` / `json.Decoder.Decode` accept when `Send` classifies a
response body. -/

inductive Json where
  | null : Json
  | bool : Bool → Json
  | num : Int → Json
  | str : String → Json
  | arr : List Json → Json
  | obj : List (String × Json) → Json

/-- Field lookup in a JSON object (first binding wins); `none` on non-objects. -/
def jsonLookup (j : Json) (key : String) : Option Json :=
  match j with
  | Json.obj fields => fields.lookup key
  | _ => none

/-- Whitespace skipping as in RFC 8259 (space, tab, line feed, carriage return). -/
def skipWs : List Char → List Char
  | [] => []
  | c :: t => if c = ' ' ∨ c = '\t' ∨ c = '\n' ∨ c = '\r' then skipWs t else c :: t

/-- Hexadecimal digit value, for the \uXXXX string escape. -/
def hexVal (c : Char) : Option Nat :=
  if '0' ≤ c ∧ c ≤ '9' then some (c.toNat - '0'.toNat)
  else if 'a' ≤ c ∧ c ≤ 'f' then some (c.toNat - 'a'.toNat + 10)
  else if 'A' ≤ c ∧ c ≤ 'F' then some (c.toNat - 'A'.toNat + 10)
  else none

/-- Decode the body of a JSON string literal, after the opening quote.
Returns the decoded characters and the input remaining after the closing
quote.  Lone surrogate escapes are not recombined (a restriction of the
model; the bodies this API exchanges do not use them). -/
def parseStringBody : List Char → Option (List Char × List Char)
  | [] => none
  | c :: t =>
    if c = '\"' then some ([], t)
    else if c = '\\' then
      match t with
      | [] => none
      | 'u' :: h1 :: h2 :: h3 :: h4 :: t2 =>
        match hexVal h1, hexVal h2, hexVal h3, hexVal h4 with
        | some a, some b, some d, some e =>
          (parseStringBody t2).map
            (fun p => (Char.ofNat (((a * 16 + b) * 16 + d) * 16 + e) :: p.1, p.2))
        | _, _, _, _ => none
      | e :: t2 =>
        let d : Option Char :=
          if e = '\"' then some '\"'
          else if e = '\\' then some '\\'
          else if e = '/' then some '/'
          else if e = 'n' then some '\n'
          else if e = 't' then some '\t'
          else if e = 'r' then some '\r'
          else if e = 'b' then some (Char.ofNat 8)
          else if e = 'f' then some (Char.ofNat 12)
          else none
        match d with
        | none => none
        | some d => (parseStringBody t2).map (fun p => (d :: p.1, p.2))
    else (parseStringBody t).map (fun p => (c :: p.1, p.2))

/-- Longest prefix of decimal digits, together with the rest of the input. -/
def takeDigits : List Char → List Char × List Char
  | [] => ([], [])
  | c :: t =>
    if '0' ≤ c ∧ c ≤ '9' then
      let p := takeDigits t
      (c :: p.1, p.2)
    else ([], c :: t)

/-- Numeric value of a digit string. -/
def digitsToNat (ds : List Char) : Nat :=
  ds.foldl (fun n c => 10 * n + (c.toNat - '0'.toNat)) 0

/-- Parse a JSON number.  The model covers the integer grammar (optional
minus sign and digits): the only numeric values appearing in this API's
bodies are integer status codes and identifiers. -/
def parseNumber (s : List Char) : Option (Int × List Char) :=
  match s with
  | '-' :: t =>
    let p := takeDigits t
    if p.1 = [] then none else some (-(Int.ofNat (digitsToNat p.1)), p.2)
  | _ =>
    let p := takeDigits s
    if p.1 = [] then none else some (Int.ofNat (digitsToNat p.1), p.2)

/-- Mode of the recursive-descent JSON parser: a value, the members of an
object (with the fields parsed so far), or the elements of an array. -/
inductive PMode where
  | val : PMode
  | members : List (String × Json) → PMode
  | elems : List Json → PMode

/-- Fuelled recursive-descent parser for the JSON grammar.  Returns the
parsed value and the unconsumed input. -/
def parseJ : Nat → PMode → List Char → Option (Json × List Char)
  | 0, _, _ => none
  | Nat.succ fuel, PMode.val, s =>
    match skipWs s with
    | [] => none
    | c :: rest =>
      if c = '\x7b' then
        match skipWs rest with
        | '\x7d' :: r2 => some (Json.obj [], r2)
        | r1 => parseJ fuel (PMode.members []) r1
      else if c = '[' then
        match skipWs rest with
        | ']' :: r2 => some (Json.arr [], r2)
        | r1 => parseJ fuel (PMode.elems []) r1
      else if c = '\"' then
        match parseStringBody rest with
        | none => none
        | some p => some (Json.str (String.mk p.1), p.2)
      else if c = 't' then
        match rest with
        | 'r' :: 'u' :: 'e' :: r1 => some (Json.bool true, r1)
        | _ => none
      else if c = 'f' then
        match rest with
        | 'a' :: 'l' :: 's' :: 'e' :: r1 => some (Json.bool false, r1)
        | _ => none
      else if c = 'n' then
        match rest with
        | 'u' :: 'l' :: 'l' :: r1 => some (Json.null, r1)
        | _ => none
      else
        match parseNumber (c :: rest) with
        | none => none
        | some p => some (Json.num p.1, p.2)
  | Nat.succ fuel, PMode.members acc, s =>
    match s with
    | '\"' :: rest =>
      match parseStringBody rest with
      | none => none
      | some kp =>
        match skipWs kp.2 with
        | ':' :: r2 =>
          match parseJ fuel PMode.val r2 with
          | none => none
          | some vp =>
            let acc2 := acc ++ [(String.mk kp.1, vp.1)]
            match skipWs vp.2 with
            | ',' :: r4 => parseJ fuel (PMode.members acc2) (skipWs r4)
            | '\x7d' :: r4 => some (Json.obj acc2, r4)
            | _ => none
        | _ => none
    | _ => none
  | Nat.succ fuel, PMode.elems acc, s =>
    match parseJ fuel PMode.val s with
    | none => none
    | some vp =>
      let acc2 := acc ++ [vp.1]
      match skipWs vp.2 with
      | ',' :: r2 => parseJ fuel (PMode.elems acc2) r2
      | ']' :: r2 => some (Json.arr acc2, r2)
      | _ => none

/-- Parse one JSON value from the front of the input.  The fuel bound is
generous: every two parser steps consume at least one input character. -/
def parseValue (s : List Char) : Option (Json × List Char) :=
  parseJ (2 * s.length + 2) PMode.val s

/-- Model of `encoding/json.Unmarshal` at the syntax level: one JSON value
followed by nothing but whitespace. -/
def unmarshalJson (s : String) : Option Json :=
  match parseValue s.data with
  | none => none
  | some p => if skipWs p.2 = [] then some p.1 else none

/-- Model of `json.Decoder.Decode` at the syntax level: the first JSON value
of the stream; trailing data is left unread and is not an error. -/
def decodeFirstJson (s : String) : Option Json :=
  (parseValue s.data).map Prod.fst

/-- String escaping as performed by `encoding/json` for the characters
appearing in this development (quote, backslash, and the common control
characters). -/
def escapeChar (c : Char) : List Char :=
  if c = '\"' then ['\\', '\"']
  else if c = '\\' then ['\\', '\\']
  else if c = '\n' then ['\\', 'n']
  else if c = '\t' then ['\\', 't']
  else if c = '\r' then ['\\', 'r']
  else [c]

/-- Escape every character of a string for inclusion in a JSON string literal. -/
def escapeString (s : String) : List Char :=
  s.data.foldr (fun c acc => escapeChar c ++ acc) []

mutual

/-- Serialize a JSON value, modelling `encoding/json.Marshal` output shape. -/
def renderJson : Json → List Char
  | Json.null => ['n', 'u', 'l', 'l']
  | Json.bool b => if b then ['t', 'r', 'u', 'e'] else ['f', 'a', 'l', 's', 'e']
  | Json.num n => (toString n).data
  | Json.str s => '\"' :: escapeString s ++ ['\"']
  | Json.arr l => '[' :: renderArr l ++ [']']
  | Json.obj l => '\x7b' :: renderObj l ++ ['\x7d']

/-- Serialize array elements, comma separated. -/
def renderArr : List Json → List Char
  | [] => []
  | [x] => renderJson x
  | x :: xs => renderJson x ++ ',' :: renderArr xs

/-- Serialize object members, comma separated. -/
def renderObj : List (String × Json) → List Char
  | [] => []
  | [kv] => '\"' :: escapeString kv.1 ++ '\"' :: ':' :: renderJson kv.2
  | kv :: xs => ('\"' :: escapeString kv.1 ++ '\"' :: ':' :: renderJson kv.2) ++ ',' :: renderObj xs

end

/-! ## Header map and request parameters

Models `net/http.Header.Set` (replace the value for a key) and the header
construction of `NewRequestWithContext` (src/http.go lines 41-47): caller
headers applied first, then, if `Bearer` is non-empty, `Authorization` is
set last.  Keys are compared verbatim; every key involved in the claims is
already in MIME canonical form, which `Header.Set` preserves. -/

/-- Model of `http.Header.Set`: replace the binding for the key, or append. -/
def headerSet : List (String × String) → String → String → List (String × String)
  | [], k, v => [(k, v)]
  | kv :: rest, k, v =>
    if kv.1 = k then (k, v) :: rest else kv :: headerSet rest k v

/-- Model of `http.Header.Get` for our purposes: first binding for the key. -/
def headerGet : List (String × String) → String → Option String
  | [], _ => none
  | kv :: rest, k => if kv.1 = k then some kv.2 else headerGet rest k

/-- Apply `Header.Set` successively for every caller-supplied header, as the
range loop in src/http.go lines 41-43 does.  Go map iteration order is
unspecified, so theorems quantify over an arbitrary listing of the map. -/
def applyHeaders (acc : List (String × String)) : List (String × String) → List (String × String)
  | [] => acc
  | kv :: rest => applyHeaders (headerSet acc kv.1 kv.2) rest

/-- RequestParams, shaped exactly by its use in src/http.go (fields BaseURL,
ApiVersion, SenderID, Endpoint, Method, Headers, Query, Bearer; the struct
declaration itself lives outside src/ and the spec's Endpoint Parameters
list the same fields).  Go maps are modelled as association lists. -/
structure RequestParams where
  baseURL : String
  apiVersion : String
  senderID : String
  endpoint : String
  method : String
  headers : List (String × String)
  query : List (String × String)
  bearer : String

/-- Header construction of `NewRequestWithContext` (src/http.go lines 41-47):
a fresh request carries no headers, the caller map is applied with
`Header.Set`, and then, when `Bearer` is non-empty, `Authorization` is set
to the string `fmt.Sprintf("Bearer %s", params.Bearer)` produces. -/
def newRequestHeaders (params : RequestParams) : List (String × String) :=
  let h := applyHeaders [] params.headers
  if params.bearer = "" then h
  else headerSet h ("Authorization") ("Bearer " ++ params.bearer)

/-! ## Response decoding and the dispatcher `Send`

`Send` (src/http.go lines 60-108) executes the request, then classifies the
transport response.  The transport response is modelled by its status code,
headers, and body: `none` is a nil `Body` stream, `some (Except.error ())`
is a present stream whose `io.ReadAll` fails, `some (Except.ok s)` is a
present stream with full content `s`. -/

/-- Modelled from the spec: the error structure (`ErrorResponse`) is declared
in a repository file outside src/; per the spec it is decoded from any
non-200 body and carries an (overwritable) integer `code`, and the spec's
error taxonomy carries a human-readable message alongside. -/
structure ErrorResponse where
  code : Int := 0
  message : String := ""
deriving DecidableEq

/-- Decode one JSON object member into an `ErrorResponse`, with
`json.Unmarshal` field semantics: later duplicate keys overwrite, unknown
keys are ignored, a null field value is a no-op, and a type mismatch is an
error. -/
def decodeErrorField (acc : ErrorResponse) (kv : String × Json) : Option ErrorResponse :=
  if kv.1 = "code" then
    match kv.2 with
    | Json.num n => some { acc with code := n }
    | Json.null => some acc
    | _ => none
  else if kv.1 = "message" then
    match kv.2 with
    | Json.str m => some { acc with message := m }
    | Json.null => some acc
    | _ => none
  else some acc

/-- Model of `json.Unmarshal(bodybytes, &errResponse)` (src/http.go line 88):
the body must be a single JSON value; an object populates the struct field
by field, a null leaves the zero value, anything else is a type error. -/
def decodeErrorResponse (s : String) : Option ErrorResponse :=
  match unmarshalJson s with
  | some (Json.obj fields) => fields.foldlM decodeErrorField ({} : ErrorResponse)
  | some Json.null => some ({} : ErrorResponse)
  | _ => none

/-- Modelled from the spec: one entry of the `contacts` list of a success
body, echoing the recipient (fields `input` and `wa_id` per the sample
response documented on `React` in src/http.go). -/
structure ResponseContact where
  input : String := ""
  waID : String := ""
deriving DecidableEq

/-- Modelled from the spec: one entry of the `messages` list of a success
body, holding the `wamid.`-prefixed identifier field `id`. -/
structure MessageIdent where
  id : String := ""
deriving DecidableEq

/-- Modelled from the spec: the success message structure
(`ResponseMessage`) is declared outside src/; per the spec's success-body
shape it carries the messaging product, a `contacts` list echoing the
recipient, and a `messages` list with the message identifier. -/
structure ResponseMessage where
  product : String := ""
  contacts : List ResponseContact := []
  messages : List MessageIdent := []
deriving DecidableEq

/-- Unmarshal one element of the `contacts` list. -/
def decodeContact : Json → Option ResponseContact
  | Json.null => some ({} : ResponseContact)
  | Json.obj fields =>
    fields.foldlM (fun acc kv =>
      if kv.1 = "input" then
        match kv.2 with
        | Json.str v => some { acc with input := v }
        | Json.null => some acc
        | _ => none
      else if kv.1 = "wa_id" then
        match kv.2 with
        | Json.str v => some { acc with waID := v }
        | Json.null => some acc
        | _ => none
      else some acc) ({} : ResponseContact)
  | _ => none

/-- Unmarshal one element of the `messages` list. -/
def decodeMessageIdent : Json → Option MessageIdent
  | Json.null => some ({} : MessageIdent)
  | Json.obj fields =>
    fields.foldlM (fun acc kv =>
      if kv.1 = "id" then
        match kv.2 with
        | Json.str v => some { acc with id := v }
        | Json.null => some acc
        | _ => none
      else some acc) ({} : MessageIdent)
  | _ => none

/-- Decode one JSON object member into a `ResponseMessage`, with
`json.Unmarshal` field semantics. -/
def decodeRMField (acc : ResponseMessage) (kv : String × Json) : Option ResponseMessage :=
  if kv.1 = "messaging_product" then
    match kv.2 with
    | Json.str v => some { acc with product := v }
    | Json.null => some acc
    | _ => none
  else if kv.1 = "contacts" then
    match kv.2 with
    | Json.arr l => (l.mapM decodeContact).map (fun cs => { acc with contacts := cs })
    | Json.null => some acc
    | _ => none
  else if kv.1 = "messages" then
    match kv.2 with
    | Json.arr l => (l.mapM decodeMessageIdent).map (fun ms => { acc with messages := ms })
    | Json.null => some acc
    | _ => none
  else some acc

/-- Model of `json.NewDecoder(bytes.NewBuffer(bodybytes)).Decode(&message)`
(src/http.go line 100): the stream decoder reads the first JSON value and
does not object to trailing data. -/
def decodeResponseMessage (s : String) : Option ResponseMessage :=
  match decodeFirstJson s with
  | some (Json.obj fields) => fields.foldlM decodeRMField ({} : ResponseMessage)
  | some Json.null => some ({} : ResponseMessage)
  | _ => none

/-- Transport response as `Send` receives it from `client.Do`.  The body is
`none` for a nil `Body` stream, otherwise the outcome of reading it fully. -/
structure GoHttpResponse where
  statusCode : Nat
  headers : List (String × String)
  body : Option (Except Unit String)

/-- Typed success result of `Send` (the `Response` struct is populated in
src/http.go lines 103-105). -/
structure SendResponse where
  statusCode : Nat
  headers : List (String × String)
  message : ResponseMessage
deriving DecidableEq

/-- Error results of `Send` after the transport call: a body read failure,
a decode failure on either branch, or the structured API error. -/
inductive SendError where
  | readError : SendError
  | decodeError : SendError
  | apiError : ErrorResponse → SendError
deriving DecidableEq

/-- Observable outcome of a `Send` call: a returned `Response` (with nil
error), a returned error (with nil `Response`), or a runtime panic. -/
inductive SendOutcome where
  | ok : SendResponse → SendOutcome
  | fail : SendError → SendOutcome
  | panicked : SendOutcome
deriving DecidableEq

/-- Model of `Send` (src/http.go lines 60-108) from the point where
`client.Do` has returned a response, paired with the number of times the
body stream is released.

The source registers `defer resp.Body.Close()` (line 75) before checking
`resp.Body == nil` (line 77).  When the body is a nil interface value,
evaluating the deferred `resp.Body.Close()` call dereferences a nil
interface and panics at run time, so the `empty response body` return on
line 78 can never be reached with a nil body: that path panics with the
stream never released.  With a present body the deferred close runs exactly
once on every return path. -/
def sendRun (resp : GoHttpResponse) : SendOutcome × Nat :=
  match resp.body with
  | none => (SendOutcome.panicked, 0)
  | some stream =>
    -- `resp.Body == nil` is false on every path that reaches line 77.
    let result :=
      match stream with
      | Except.error _ => SendOutcome.fail SendError.readError
      | Except.ok bodybytes =>
        if resp.statusCode ≠ 200 then
          match decodeErrorResponse bodybytes with
          | none => SendOutcome.fail SendError.decodeError
          | some er =>
            SendOutcome.fail (SendError.apiError { er with code := Int.ofNat resp.statusCode })
        else
          match decodeResponseMessage bodybytes with
          | none => SendOutcome.fail SendError.decodeError
          | some msg =>
            SendOutcome.ok
              { statusCode := resp.statusCode, headers := resp.headers, message := msg }
    (result, 1)

/-! ## Message envelope builders -/

/-- The text payload (`models.Text`, an external collaborator): preview-url
flag and body, with wire names `preview_url` and `body` per the spec's
SendText property. -/
structure TextPayload where
  previewUrl : Bool
  body : String

/-- The reaction payload (`models.Reaction`, an external collaborator):
target message id and emoji, with wire names `message_id` and `emoji` as in
the sample request documented on `React` in src/http.go. -/
structure ReactionPayload where
  messageID : String
  emoji : String

/-- Modelled from the spec: the `Message` envelope struct is declared in a
repository file outside src/.  Per the spec it is a flat struct with a fixed
`messaging_product` field, a `to` field, an optional `recipient_type` field
(omitted when empty), a `type` discriminant, and one optional payload field
per kind, each omitted when absent.  The location and contacts payloads are
opaque to the claims and are modelled by their serialized JSON value. -/
structure Message where
  product : String
  toField : String
  recipientType : String := ""
  type : String
  text : Option TextPayload := none
  location : Option Json := none
  reaction : Option ReactionPayload := none
  contacts : Option Json := none

/-- Wire form of a text payload. -/
def textToJson (t : TextPayload) : Json :=
  Json.obj [(("preview_url"), Json.bool t.previewUrl), (("body"), Json.str t.body)]

/-- Wire form of a reaction payload. -/
def reactionToJson (r : ReactionPayload) : Json :=
  Json.obj [(("message_id"), Json.str r.messageID), (("emoji"), Json.str r.emoji)]

/-- Wire form of the envelope, modelling `json.Marshal` on the `Message`
struct: fixed fields first, `recipient_type` omitted when empty, and each
absent payload field omitted (`omitempty`). -/
def messageToJson (m : Message) : Json :=
  Json.obj
    ([(("messaging_product"), Json.str m.product)]
      ++ (if m.recipientType = "" then [] else [(("recipient_type"), Json.str m.recipientType)])
      ++ [(("to"), Json.str m.toField), (("type"), Json.str m.type)]
      ++ (match m.text with
          | none => []
          | some t => [(("text"), textToJson t)])
      ++ (match m.location with
          | none => []
          | some l => [(("location"), l)])
      ++ (match m.reaction with
          | none => []
          | some r => [(("reaction"), reactionToJson r)])
      ++ (match m.contacts with
          | none => []
          | some c => [(("contacts"), c)]))

/-- Serialized envelope bytes, as handed to `Send`. -/
def marshalMessage (m : Message) : String :=
  String.mk (renderJson (messageToJson m))

/-- ReactRequest (src/http.go lines 158-162). -/
structure ReactRequest where
  recipient : String
  messageID : String
  emoji : String

/-- The envelope `React` constructs (src/http.go lines 207-215): product
`whatsapp`, the recipient, type `reaction`, the reaction payload, and no
recipient type. -/
def reactMessage (req : ReactRequest) : Message :=
  { product := "whatsapp"
    toField := req.recipient
    type := "reaction"
    reaction := some { messageID := req.messageID, emoji := req.emoji } }

/-! ## The Reply builder -/

/-- ReplyParams (src/http.go lines 247-252).  `MessageType` is a string
type; `Content` is an arbitrary value handed to `json.Marshal`, modelled by
the JSON value it marshals to. -/
structure ReplyParams where
  recipient : String
  context : String
  messageType : String
  content : Json

/-- Model of `buildReplyPayload` (src/http.go lines 291-309): the payload is
assembled by writing fixed JSON fragments around the raw `Context`,
`Recipient` and `MessageType` strings and the independently marshalled
content bytes.  The string-builder writes are faithful to the source,
fragment by fragment. -/
def buildReplyPayload (options : ReplyParams) : String :=
  "\x7b\"messaging_product\":\"whatsapp\",\"context\":\x7b\"message_id\":\""
    ++ options.context
    ++ "\"\x7d,\"to\":\""
    ++ options.recipient
    ++ "\",\"type\":\""
    ++ options.messageType
    ++ "\",\""
    ++ options.messageType
    ++ "\":"
    ++ String.mk (renderJson options.content)
    ++ "\x7d"

/-- Concrete ReplyParams whose recipient contains a double quote; the
content marshals to a small text object.  This is the failing input for
claim C1. -/
def c1ReplyParams : ReplyParams :=
  { recipient := "x\"y", context := "MID", messageType := "text"
    content := Json.obj [(("body"), Json.str ("hi"))] }

/-- Model of `Reply` (src/http.go lines 277-287).  A nil options pointer is
rejected before any payload construction or dispatch; otherwise the payload
is built and handed to `Send`, whose transport behaviour is abstracted as a
function from the dispatched payload bytes to the transport response. -/
def replyRun (options : Option ReplyParams) (transport : String → GoHttpResponse) :
    Except String (SendOutcome × Nat) :=
  match options with
  | none => Except.error ("options cannot be nil")
  | some o => Except.ok (sendRun (transport (buildReplyPayload o)))

/-! ## URL path assembly

`NewRequestWithContext` assembles the request URL with
`url.JoinPath(params.BaseURL, params.ApiVersion, params.SenderID,
params.Endpoint)` (src/http.go line 24) and the resulting string is parsed
back by `http.NewRequestWithContext`.  The stdlib collaborators are
modelled at the level of the URL path: `path.Clean` by its documented
lexical algorithm (collapse repeated slashes, drop `.` components, resolve
`..` against a component stack), `path.Join` by join-then-clean,
`URL.JoinPath` (Go 1.20+ semantics) by prefixing the base path, cleaning,
and preserving one trailing slash of the last element, and `URL.String` by
re-rooting a relative path when a host is present.  Everything works on
character lists. -/

/-- A run of `n` slash characters. -/
def slashes (n : Nat) : List Char :=
  List.replicate n '/'

/-- Split a character list on the slash separator ('a/b' gives components
'a', 'b'; separators at the ends give empty components). -/
def splitSlash : List Char → List (List Char)
  | [] => [[]]
  | c :: t =>
    if c = '/' then [] :: splitSlash t
    else
      match splitSlash t with
      | [] => [[c]]
      | h :: r => (c :: h) :: r

/-- Component pass of `path.Clean`: drop empty and `.` components, resolve
`..` against the stack of emitted components (a rooted path drops `..` at
the root; an unrooted path keeps leading `..` components). -/
def cleanStack (rooted : Bool) : List (List Char) → List (List Char) → List (List Char)
  | acc, [] => acc.reverse
  | acc, c :: rest =>
    if c = [] ∨ c = ['.'] then cleanStack rooted acc rest
    else if c = ['.', '.'] then
      match acc with
      | [] => if rooted then cleanStack rooted [] rest else cleanStack rooted [['.', '.']] rest
      | top :: accRest =>
        if top = ['.', '.'] then cleanStack rooted (['.', '.'] :: (top :: accRest)) rest
        else cleanStack rooted accRest rest
    else cleanStack rooted (c :: acc) rest

/-- Join components with single slashes. -/
def intercalateSlash : List (List Char) → List Char
  | [] => []
  | [c] => c
  | c :: rest => c ++ '/' :: intercalateSlash rest

/-- Model of `path.Clean`: empty input gives `.`, otherwise the cleaned
components joined by single slashes, keeping the root slash, and `.` when
nothing remains. -/
def pathClean (p : List Char) : List Char :=
  match p with
  | [] => ['.']
  | c :: _ =>
    let rooted := c == '/'
    let comps := cleanStack rooted [] (splitSlash p)
    let out := (if rooted then ['/'] else []) ++ intercalateSlash comps
    if out = [] then ['.'] else out

/-- The raw concatenation step of `path.Join`: skip leading empty elements,
then join the rest (empty ones included) with slashes. -/
def joinRaw : List (List Char) → List Char
  | [] => []
  | e :: rest => if e = [] then joinRaw rest else intercalateSlash (e :: rest)

/-- Model of `path.Join`: empty when every element is empty, otherwise the
cleaned raw join. -/
def goPathJoin (elems : List (List Char)) : List Char :=
  let raw := joinRaw elems
  if raw = [] then [] else pathClean raw

/-- Last character of a list, if any. -/
def lastChar : List Char → Option Char
  | [] => none
  | [c] => some c
  | _ :: t => lastChar t

/-- Model of `strings.HasSuffix(s, "/")`. -/
def endsWithSlash (l : List Char) : Bool :=
  lastChar l == some '/'

/-- Model of `URL.JoinPath` (Go 1.20+) on the path component: the base path
is put in front (rooted for the join, un-rooting the result again when the
base was relative), the elements are joined and cleaned, and one trailing
slash of the last element is preserved. -/
def urlJoinPath (basePath : List Char) (elems : List (List Char)) : List Char :=
  let elem0 := if basePath.head? = some '/' then basePath else '/' :: basePath
  let p0 := goPathJoin (elem0 :: elems)
  let p := if basePath.head? = some '/' then p0 else p0.drop 1
  let lastE := (elem0 :: elems).getLast?.getD []
  if endsWithSlash lastE && ! endsWithSlash p then p ++ ['/'] else p

/-- Path of the URL string `url.JoinPath` returns for a base URL with a
host: `URL.String` writes a `/` before a non-empty relative path when a
host is present, which is how the full URL is later re-parsed by
`http.NewRequestWithContext`. -/
def assembledPath (basePath : List Char) (elems : List (List Char)) : List Char :=
  let p := urlJoinPath basePath elems
  match p with
  | [] => []
  | c :: _ => if c = '/' then p else '/' :: p

/-- Path of the request URL `NewRequestWithContext` assembles, as a function
of the base URL's path component and the three appended segments
(src/http.go line 24). -/
def requestURLPath (basePath apiVersion senderID endpoint : List Char) : List Char :=
  assembledPath basePath [apiVersion, senderID, endpoint]

/-- A simple path segment: non-empty, slash-free, and not a dot component. -/
def simpleSeg (c : List Char) : Prop :=
  c ≠ [] ∧ '/' ∉ c ∧ c ≠ ['.'] ∧ c ≠ ['.', '.']

instance (c : List Char) : Decidable (simpleSeg c) :=
  inferInstanceAs (Decidable (c ≠ [] ∧ '/' ∉ c ∧ c ≠ ['.'] ∧ c ≠ ['.', '.']))

/-! ## Header lemmas -/

theorem headerGet_headerSet_self (l : List (String × String)) (k v : String) :
    headerGet (headerSet l k v) k = some v := by
  induction l with
  | nil => simp [headerSet, headerGet]
  | cons kv rest ih =>
    by_cases h : kv.1 = k
    · simp [headerSet, headerGet, h]
    · simp [headerSet, headerGet, h, ih]

theorem headerGet_headerSet_other (l : List (String × String)) (k v q : String)
    (h : k ≠ q) : headerGet (headerSet l k v) q = headerGet l q := by
  induction l with
  | nil => simp [headerSet, headerGet, h]
  | cons kv rest ih =>
    by_cases h2 : kv.1 = k
    · simp [headerSet, headerGet, h2, h]
    · simp only [headerSet, headerGet, if_neg h2]
      by_cases h3 : kv.1 = q
      · simp [headerGet, h3]
      · simp [headerGet, h3, ih]

theorem headerGet_applyHeaders_of_notMem (hs : List (String × String)) :
    ∀ (acc : List (String × String)) (k : String), k ∉ hs.map Prod.fst →
      headerGet (applyHeaders acc hs) k = headerGet acc k := by
  induction hs with
  | nil => intro acc k _; rfl
  | cons kv rest ih =>
    intro acc k h
    have h1 : kv.1 ≠ k := by
      intro e
      exact h (by simp [e])
    have h2 : k ∉ rest.map Prod.fst := by
      intro e
      exact h (by simp [e])
    rw [applyHeaders, ih _ _ h2, headerGet_headerSet_other _ _ _ _ h1]

theorem headerGet_applyHeaders_of_mem (hs : List (String × String)) :
    ∀ (acc : List (String × String)) (k v : String),
      ((hs.map Prod.fst).Nodup) → (k, v) ∈ hs →
      headerGet (applyHeaders acc hs) k = some v := by
  induction hs with
  | nil =>
    intro acc k v _ hmem
    simp at hmem
  | cons kv rest ih =>
    intro acc k v hnd hmem
    rw [List.map_cons, List.nodup_cons] at hnd
    rcases List.mem_cons.mp hmem with hhead | htail
    · subst hhead
      rw [applyHeaders, headerGet_applyHeaders_of_notMem rest _ _ hnd.1]
      exact headerGet_headerSet_self acc k v
    · exact ih _ _ _ hnd.2 htail

/-! ## Path assembly lemmas -/

theorem slashes_zero : slashes 0 = [] := rfl

theorem slashes_succ_append (n : Nat) (l : List Char) :
    slashes (n + 1) ++ l = '/' :: (slashes n ++ l) := rfl

theorem slashes_swap (n : Nat) (l : List Char) :
    slashes n ++ '/' :: l = '/' :: (slashes n ++ l) := by
  induction n with
  | zero => rfl
  | succ k ih =>
    show '/' :: (slashes k ++ '/' :: l) = '/' :: ('/' :: (slashes k ++ l))
    rw [ih]

theorem splitSlash_ne_nil (l : List Char) : splitSlash l ≠ [] := by
  induction l with
  | nil => simp [splitSlash]
  | cons c t ih =>
    by_cases hc : c = '/'
    · simp [splitSlash, hc]
    · simp only [splitSlash, if_neg hc]
      cases hq : splitSlash t with
      | nil => simp
      | cons h r => simp

theorem splitSlash_append_cons (xs ys : List Char) :
    splitSlash (xs ++ '/' :: ys) = splitSlash xs ++ splitSlash ys := by
  induction xs with
  | nil => simp [splitSlash]
  | cons c t ih =>
    by_cases hc : c = '/'
    · simp [splitSlash, hc, ih]
    · simp only [List.cons_append, splitSlash, if_neg hc, List.append_eq]
      cases hq : splitSlash t with
      | nil => exact absurd hq (splitSlash_ne_nil t)
      | cons h r => rw [ih, hq]; simp

theorem splitSlash_noSlash : ∀ (c : List Char), '/' ∉ c → splitSlash c = [c] := by
  intro c
  induction c with
  | nil => intro _; rfl
  | cons a t ih =>
    intro h
    have ha : a ≠ '/' := fun e => h (by simp [e])
    have ht : '/' ∉ t := fun e => h (List.mem_cons_of_mem _ e)
    simp only [splitSlash, if_neg (fun e => ha e), ih ht]

theorem splitSlash_slashes_append (n : Nat) (rest : List Char) :
    splitSlash (slashes n ++ rest) = List.replicate n [] ++ splitSlash rest := by
  induction n with
  | zero => simp [slashes]
  | succ k ih =>
    show splitSlash ('/' :: (slashes k ++ rest)) = _
    simp [splitSlash, ih, List.replicate_succ]

theorem splitSlash_slashes (n : Nat) : splitSlash (slashes n) = List.replicate (n + 1) [] := by
  have h := splitSlash_slashes_append n []
  rw [List.append_nil] at h
  rw [h]
  show List.replicate n [] ++ [[]] = _
  rw [← List.replicate_succ']

theorem splitSlash_core_append (core : List Char) (h : '/' ∉ core) (rest : List Char) :
    splitSlash (core ++ '/' :: rest) = core :: splitSlash rest := by
  rw [splitSlash_append_cons, splitSlash_noSlash core h]
  rfl

theorem splitSlash_core_slashes (core : List Char) (h : '/' ∉ core) (b : Nat) :
    splitSlash (core ++ slashes b) = core :: List.replicate b [] := by
  cases b with
  | zero => simp [slashes, splitSlash_noSlash core h]
  | succ k =>
    show splitSlash (core ++ '/' :: slashes k) = _
    rw [splitSlash_core_append core h, splitSlash_slashes k]

theorem splitSlash_seg (core : List Char) (h : '/' ∉ core) (a b : Nat) (rest : List Char) :
    splitSlash (slashes a ++ (core ++ (slashes b ++ '/' :: rest)))
      = List.replicate a [] ++ (core :: (List.replicate b [] ++ splitSlash rest)) := by
  rw [slashes_swap b rest, splitSlash_slashes_append a,
    splitSlash_core_append core h, splitSlash_slashes_append b]

theorem splitSlash_seg_last (core : List Char) (h : '/' ∉ core) (a b : Nat) :
    splitSlash (slashes a ++ (core ++ slashes b))
      = List.replicate a [] ++ (core :: List.replicate b []) := by
  rw [splitSlash_slashes_append a, splitSlash_core_slashes core h b]

theorem cleanStack_replicate (r : Bool) (acc : List (List Char)) (n : Nat)
    (rest : List (List Char)) :
    cleanStack r acc (List.replicate n [] ++ rest) = cleanStack r acc rest := by
  induction n with
  | zero => rfl
  | succ k ih =>
    rw [List.replicate_succ, List.cons_append]
    show cleanStack r acc ([] :: (List.replicate k [] ++ rest)) = _
    simp [cleanStack, ih]

theorem cleanStack_replicate_nil (r : Bool) (acc : List (List Char)) (n : Nat) :
    cleanStack r acc (List.replicate n []) = acc.reverse := by
  have h := cleanStack_replicate r acc n []
  rw [List.append_nil] at h
  rw [h]
  rfl

theorem cleanStack_push (r : Bool) (acc : List (List Char)) (c : List Char)
    (rest : List (List Char)) (h1 : c ≠ []) (h2 : c ≠ ['.']) (h3 : c ≠ ['.', '.']) :
    cleanStack r acc (c :: rest) = cleanStack r (c :: acc) rest := by
  simp only [cleanStack]
  rw [if_neg (by simp [h1, h2]), if_neg h3]

theorem lastChar_cons (x : Char) (t : List Char) (h : t ≠ []) :
    lastChar (x :: t) = lastChar t := by
  cases t with
  | nil => exact absurd rfl h
  | cons a b => rfl

theorem lastChar_append (xs ys : List Char) (h : ys ≠ []) :
    lastChar (xs ++ ys) = lastChar ys := by
  induction xs with
  | nil => rfl
  | cons x t ih =>
    rw [List.cons_append, lastChar_cons x (t ++ ys) (by simp [h]), ih]

theorem lastChar_through (xs : List Char) (y : Char) (ys : List Char) (h : ys ≠ []) :
    lastChar (xs ++ y :: ys) = lastChar ys := by
  rw [lastChar_append xs (y :: ys) (List.cons_ne_nil y ys), lastChar_cons y ys h]

theorem lastChar_slashes (n : Nat) : lastChar (slashes (n + 1)) = some '/' := by
  induction n with
  | zero => rfl
  | succ k ih =>
    show lastChar ('/' :: slashes (k + 1)) = some '/'
    rw [lastChar_cons _ _ (by simp [slashes]), ih]

theorem lastChar_noSlash : ∀ (c : List Char), c ≠ [] → '/' ∉ c → lastChar c ≠ some '/' := by
  intro c
  induction c with
  | nil => intro h _; exact absurd rfl h
  | cons a t ih =>
    intro _ h2
    cases t with
    | nil =>
      intro e
      have : a = '/' := by simpa [lastChar] using e
      exact h2 (by simp [this])
    | cons b u =>
      rw [lastChar_cons a (b :: u) (by simp)]
      exact ih (by simp) (fun e => h2 (List.mem_cons_of_mem _ e))

theorem pathClean_rooted (t : List Char) :
    pathClean ('/' :: t) = '/' :: intercalateSlash (cleanStack true [] (splitSlash ('/' :: t))) := by
  simp [pathClean]

/-- Core computation for claim C7: cleaning a rooted join of four
slash-decorated simple segments yields exactly the slash-joined cores. -/
theorem pathClean_decorated (cb cv cs ce : List Char)
    (hb2 : '/' ∉ cb) (hb1 : cb ≠ []) (hb3 : cb ≠ ['.']) (hb4 : cb ≠ ['.', '.'])
    (hv2 : '/' ∉ cv) (hv1 : cv ≠ []) (hv3 : cv ≠ ['.']) (hv4 : cv ≠ ['.', '.'])
    (hs2 : '/' ∉ cs) (hs1 : cs ≠ []) (hs3 : cs ≠ ['.']) (hs4 : cs ≠ ['.', '.'])
    (he2 : '/' ∉ ce) (he1 : ce ≠ []) (he3 : ce ≠ ['.']) (he4 : ce ≠ ['.', '.'])
    (k b1 a2 b2 a3 b3 a4 b4 : Nat) :
    pathClean (slashes (k + 1) ++ (cb ++ (slashes b1 ++ '/' ::
        (slashes a2 ++ (cv ++ (slashes b2 ++ '/' ::
          (slashes a3 ++ (cs ++ (slashes b3 ++ '/' ::
            (slashes a4 ++ (ce ++ slashes b4))))))))))) =
      '/' :: (cb ++ '/' :: (cv ++ '/' :: (cs ++ '/' :: ce))) := by
  rw [slashes_succ_append, pathClean_rooted, ← slashes_succ_append]
  rw [splitSlash_seg cb hb2, splitSlash_seg cv hv2, splitSlash_seg cs hs2,
    splitSlash_seg_last ce he2]
  rw [cleanStack_replicate, cleanStack_push _ _ _ _ hb1 hb3 hb4,
    cleanStack_replicate, cleanStack_replicate, cleanStack_push _ _ _ _ hv1 hv3 hv4,
    cleanStack_replicate, cleanStack_replicate, cleanStack_push _ _ _ _ hs1 hs3 hs4,
    cleanStack_replicate, cleanStack_replicate, cleanStack_push _ _ _ _ he1 he3 he4,
    cleanStack_replicate_nil]
  rfl

theorem joinRaw_four (e1 e2 e3 e4 : List Char) (h : e1 ≠ []) :
    joinRaw [e1, e2, e3, e4] = e1 ++ '/' :: (e2 ++ '/' :: (e3 ++ '/' :: e4)) := by
  simp only [joinRaw, if_neg h]
  rfl

theorem goPathJoin_decorated (cb cv cs ce : List Char)
    (hcb : simpleSeg cb) (hcv : simpleSeg cv) (hcs : simpleSeg cs) (hce : simpleSeg ce)
    (k b1 a2 b2 a3 b3 a4 b4 : Nat) :
    goPathJoin [slashes (k + 1) ++ (cb ++ slashes b1), slashes a2 ++ (cv ++ slashes b2),
        slashes a3 ++ (cs ++ slashes b3), slashes a4 ++ (ce ++ slashes b4)]
      = '/' :: (cb ++ '/' :: (cv ++ '/' :: (cs ++ '/' :: ce))) := by
  obtain ⟨hb1, hb2, hb3, hb4⟩ := hcb
  obtain ⟨hv1, hv2, hv3, hv4⟩ := hcv
  obtain ⟨hs1, hs2v, hs3, hs4⟩ := hcs
  obtain ⟨he1, he2, he3, he4⟩ := hce
  have hne : slashes (k + 1) ++ (cb ++ slashes b1) ≠ [] := by
    rw [slashes_succ_append]; simp
  simp only [goPathJoin]
  rw [joinRaw_four _ _ _ _ hne]
  simp only [List.append_assoc]
  have hne2 : slashes (k + 1) ++ (cb ++ (slashes b1 ++ '/' ::
      (slashes a2 ++ (cv ++ (slashes b2 ++ '/' ::
        (slashes a3 ++ (cs ++ (slashes b3 ++ '/' ::
          (slashes a4 ++ (ce ++ slashes b4)))))))))) ≠ [] := by
    rw [slashes_succ_append]; simp
  rw [if_neg hne2]
  exact pathClean_decorated cb cv cs ce hb2 hb1 hb3 hb4 hv2 hv1 hv3 hv4
    hs2v hs1 hs3 hs4 he2 he1 he3 he4 k b1 a2 b2 a3 b3 a4 b4

theorem endsWithSlash_seg_zero (a : Nat) (core : List Char)
    (h1 : core ≠ []) (h2 : '/' ∉ core) :
    endsWithSlash (slashes a ++ (core ++ slashes 0)) = false := by
  simp only [endsWithSlash, slashes_zero, List.append_nil]
  rw [lastChar_append _ _ h1, beq_eq_false_iff_ne]
  exact lastChar_noSlash core h1 h2

theorem slashes_succ (n : Nat) : slashes (n + 1) = '/' :: slashes n := rfl

theorem endsWithSlash_seg_succ (a m : Nat) (core : List Char) :
    endsWithSlash (slashes a ++ (core ++ slashes (m + 1))) = true := by
  simp only [endsWithSlash]
  rw [lastChar_append _ _ (show core ++ slashes (m + 1) ≠ [] by rw [slashes_succ]; simp),
    lastChar_append _ _ (show slashes (m + 1) ≠ [] by rw [slashes_succ]; simp),
    lastChar_slashes m]
  simp

theorem endsWithSlash_corejoin (cb cv cs ce : List Char)
    (h1 : ce ≠ []) (h2 : '/' ∉ ce) :
    endsWithSlash (cb ++ '/' :: (cv ++ '/' :: (cs ++ '/' :: ce))) = false := by
  simp only [endsWithSlash]
  rw [lastChar_through _ _ _ (show cv ++ '/' :: (cs ++ '/' :: ce) ≠ [] by simp),
    lastChar_through _ _ _ (show cs ++ '/' :: ce ≠ [] by simp),
    lastChar_through _ _ _ h1, beq_eq_false_iff_ne]
  exact lastChar_noSlash ce h1 h2

theorem endsWithSlash_rooted_corejoin (cb cv cs ce : List Char)
    (h1 : ce ≠ []) (h2 : '/' ∉ ce) :
    endsWithSlash ('/' :: (cb ++ '/' :: (cv ++ '/' :: (cs ++ '/' :: ce)))) = false := by
  have h := endsWithSlash_corejoin cb cv cs ce h1 h2
  simp only [endsWithSlash] at h ⊢
  rw [lastChar_cons _ _ (show cb ++ '/' :: (cv ++ '/' :: (cs ++ '/' :: ce)) ≠ [] by simp)]
  exact h

theorem urlJoinPath_decorated_rooted (cb cv cs ce : List Char)
    (hcb : simpleSeg cb) (hcv : simpleSeg cv) (hcs : simpleSeg cs) (hce : simpleSeg ce)
    (k b1 a2 b2 a3 b3 a4 b4 : Nat) :
    urlJoinPath (slashes (k + 1) ++ (cb ++ slashes b1))
        [slashes a2 ++ (cv ++ slashes b2), slashes a3 ++ (cs ++ slashes b3),
          slashes a4 ++ (ce ++ slashes b4)]
      = '/' :: (cb ++ '/' :: (cv ++ '/' :: (cs ++ '/' ::
          (ce ++ (if b4 = 0 then [] else ['/']))))) := by
  have he1 := hce.1
  have he2 := hce.2.1
  have hhead : (slashes (k + 1) ++ (cb ++ slashes b1)).head? = some '/' := by
    rw [slashes_succ_append]; rfl
  simp only [urlJoinPath, hhead, if_true]
  have hlast : (((slashes (k + 1) ++ (cb ++ slashes b1))) ::
      [slashes a2 ++ (cv ++ slashes b2), slashes a3 ++ (cs ++ slashes b3),
        slashes a4 ++ (ce ++ slashes b4)]).getLast?.getD [] = slashes a4 ++ (ce ++ slashes b4) := rfl
  rw [hlast, goPathJoin_decorated cb cv cs ce hcb hcv hcs hce k b1 a2 b2 a3 b3 a4 b4]
  cases b4 with
  | zero =>
    rw [endsWithSlash_seg_zero a4 ce he1 he2]
    simp
  | succ m =>
    rw [endsWithSlash_seg_succ a4 m ce, endsWithSlash_rooted_corejoin cb cv cs ce he1 he2]
    simp [List.append_assoc]

theorem urlJoinPath_decorated_relative (cb cv cs ce : List Char)
    (hcb : simpleSeg cb) (hcv : simpleSeg cv) (hcs : simpleSeg cs) (hce : simpleSeg ce)
    (b1 a2 b2 a3 b3 a4 b4 : Nat) :
    urlJoinPath (cb ++ slashes b1)
        [slashes a2 ++ (cv ++ slashes b2), slashes a3 ++ (cs ++ slashes b3),
          slashes a4 ++ (ce ++ slashes b4)]
      = cb ++ '/' :: (cv ++ '/' :: (cs ++ '/' ::
          (ce ++ (if b4 = 0 then [] else ['/'])))) := by
  have he1 := hce.1
  have he2 := hce.2.1
  obtain ⟨c0, cbt, rfl⟩ := List.exists_cons_of_ne_nil hcb.1
  have hc0 : c0 ≠ '/' := fun e => hcb.2.1 (by simp [e])
  have hhead : ((c0 :: cbt) ++ slashes b1).head? = some c0 := rfl
  have hcf : (c0 = '/') = False := eq_false hc0
  simp only [urlJoinPath, hhead, Option.some.injEq, hcf, if_false]
  have helem : ('/' :: ((c0 :: cbt) ++ slashes b1)) = slashes (0 + 1) ++ ((c0 :: cbt) ++ slashes b1) := rfl
  rw [helem, goPathJoin_decorated (c0 :: cbt) cv cs ce hcb hcv hcs hce 0 b1 a2 b2 a3 b3 a4 b4]
  have hlast : ((slashes (0 + 1) ++ ((c0 :: cbt) ++ slashes b1)) ::
      [slashes a2 ++ (cv ++ slashes b2), slashes a3 ++ (cs ++ slashes b3),
        slashes a4 ++ (ce ++ slashes b4)]).getLast?.getD [] = slashes a4 ++ (ce ++ slashes b4) := rfl
  rw [hlast]
  simp only [List.drop_one, List.tail_cons]
  cases b4 with
  | zero =>
    rw [endsWithSlash_seg_zero a4 ce he1 he2]
    simp
  | succ m =>
    rw [endsWithSlash_seg_succ a4 m ce, endsWithSlash_corejoin (c0 :: cbt) cv cs ce he1 he2]
    simp [List.append_assoc]

/-! ## Claim theorems -/

/-- Claim C2: for every RequestParams with a non-empty bearer token, the
request built by NewRequestWithContext carries a final Authorization header
equal to `Bearer token`, even when the caller's header map also contains an
Authorization entry: the bearer value is set last and wins. -/
theorem c2_bearer_token_wins (params : RequestParams) (h : params.bearer ≠ "") :
    headerGet (newRequestHeaders params) ("Authorization")
      = some ("Bearer " ++ params.bearer) := by
  unfold newRequestHeaders
  rw [if_neg h]
  exact headerGet_headerSet_self _ _ _

/-- Witness for C2: a caller-supplied Authorization header is overridden by
the bearer token. -/
theorem c2_bearer_token_wins_witness :
    (("tok" : String) ≠ "")
    ∧ headerGet
        (newRequestHeaders
          { baseURL := "https://graph.facebook.com", apiVersion := "v15.0"
            senderID := "12345", endpoint := "messages", method := "POST"
            headers := [(("Authorization"), ("manual")), (("Content-Type"), ("application/json"))]
            query := [], bearer := "tok" }) ("Authorization")
      = some ("Bearer tok") :=
  ⟨by decide,
   c2_bearer_token_wins
     { baseURL := "https://graph.facebook.com", apiVersion := "v15.0"
       senderID := "12345", endpoint := "messages", method := "POST"
       headers := [(("Authorization"), ("manual")), (("Content-Type"), ("application/json"))]
       query := [], bearer := "tok" } (by decide)⟩

/-- Claim C10 (implicit): when the bearer token is empty,
NewRequestWithContext injects no Authorization header of its own, so a
caller-supplied Authorization entry (keys of a Go map are distinct) is
carried through unchanged. -/
theorem c10_empty_bearer_keeps_caller_header (params : RequestParams) (v : String)
    (hb : params.bearer = "") (hnd : (params.headers.map Prod.fst).Nodup)
    (hmem : ((("Authorization") : String), v) ∈ params.headers) :
    headerGet (newRequestHeaders params) ("Authorization") = some v := by
  unfold newRequestHeaders
  rw [if_pos hb]
  exact headerGet_applyHeaders_of_mem _ _ _ _ hnd hmem

/-- Witness for C10: with an empty bearer the caller's Authorization value
survives. -/
theorem c10_empty_bearer_keeps_caller_header_witness :
    (("" : String) = "")
    ∧ ([("Authorization"), ("Content-Type")] : List String).Nodup
    ∧ headerGet
        (newRequestHeaders
          { baseURL := "https://graph.facebook.com", apiVersion := "v15.0"
            senderID := "12345", endpoint := "messages", method := "GET"
            headers := [(("Authorization"), ("custom-scheme abc")), (("Content-Type"), ("application/json"))]
            query := [], bearer := "" }) ("Authorization")
      = some ("custom-scheme abc") :=
  ⟨rfl, by decide,
   c10_empty_bearer_keeps_caller_header
     { baseURL := "https://graph.facebook.com", apiVersion := "v15.0"
       senderID := "12345", endpoint := "messages", method := "GET"
       headers := [(("Authorization"), ("custom-scheme abc")), (("Content-Type"), ("application/json"))]
       query := [], bearer := "" } ("custom-scheme abc") rfl (by decide) (by decide)⟩

/-- Claim C3: on a non-200 transport response whose body decodes into the
error structure, Send returns the decoded ErrorResponse as the error, with
its code overwritten to the observed HTTP status (whatever code the body
embedded is discarded), and no Response: the outcome is a failure carrying
exactly that value, with the body released once. -/
theorem c3_non200_returns_structured_error (resp : GoHttpResponse) (s : String)
    (er : ErrorResponse) (hb : resp.body = some (Except.ok s))
    (hs : resp.statusCode ≠ 200) (hd : decodeErrorResponse s = some er) :
    sendRun resp
      = (SendOutcome.fail (SendError.apiError { er with code := Int.ofNat resp.statusCode }), 1) := by
  simp [sendRun, hb, hs, hd]

/-- Witness for C3: a 400 response whose body embeds code 123 yields the
structured error with code 400. -/
theorem c3_non200_returns_structured_error_witness :
    ((400 : Nat) ≠ 200)
    ∧ decodeErrorResponse ("\x7b\"code\":123,\"message\":\"bad request\"\x7d")
        = some { code := 123, message := "bad request" }
    ∧ sendRun
        { statusCode := 400, headers := []
          body := some (Except.ok ("\x7b\"code\":123,\"message\":\"bad request\"\x7d")) }
      = (SendOutcome.fail (SendError.apiError { code := 400, message := "bad request" }), 1) :=
  ⟨by decide, rfl,
   c3_non200_returns_structured_error
     { statusCode := 400, headers := []
       body := some (Except.ok ("\x7b\"code\":123,\"message\":\"bad request\"\x7d")) }
     ("\x7b\"code\":123,\"message\":\"bad request\"\x7d")
     { code := 123, message := "bad request" } rfl (by decide) rfl⟩

/-- Claim C4: the claim says a transport response with a nil body stream
makes Send return the explicit empty-response-body error.  The code instead
panics on that input: `defer resp.Body.Close()` is registered on line 75,
before the nil check on line 77, and the deferred Close call on a nil
interface value panics, so the error return on line 78 is unreachable.
This theorem evaluates the model at the failing input. -/
theorem c4_nil_body_panics_not_error :
    sendRun { statusCode := 200, headers := [], body := none }
      = (SendOutcome.panicked, 0) := rfl

/-- Claim C5: the claim says the body stream is released exactly once and
Send never panics on any exit path after the transport call.  On the
nil-body path the code panics through the deferred Close on a nil interface
and the stream is never released (release count 0).  This theorem evaluates
the model at that failing input. -/
theorem c5_nil_body_path_skips_release :
    sendRun { statusCode := 404, headers := [(("X-Request-Id"), ("1"))], body := none }
      = (SendOutcome.panicked, 0) := rfl

/-- Claim C6: on a 200 transport response whose body decodes into the
success message structure, Send returns a Response with status code 200,
the transport headers, and the decoded message, with nil error; the body is
released once. -/
theorem c6_200_returns_response (resp : GoHttpResponse) (s : String)
    (msg : ResponseMessage) (hb : resp.body = some (Except.ok s))
    (hs : resp.statusCode = 200) (hd : decodeResponseMessage s = some msg) :
    sendRun resp
      = (SendOutcome.ok { statusCode := 200, headers := resp.headers, message := msg }, 1) := by
  simp [sendRun, hb, hs, hd]

set_option maxRecDepth 10000 in
/-- Witness for C6: a 200 response with a well-formed success body yields a
Response carrying the decoded wamid identifier. -/
theorem c6_200_returns_response_witness :
    ((200 : Nat) = 200)
    ∧ decodeResponseMessage
        ("\x7b\"messaging_product\":\"whatsapp\",\"contacts\":[\x7b\"input\":\"16505551234\",\"wa_id\":\"16505551234\"\x7d],\"messages\":[\x7b\"id\":\"wamid.ABC\"\x7d]\x7d")
        = some
            { product := "whatsapp"
              contacts := [{ input := "16505551234", waID := "16505551234" }]
              messages := [{ id := "wamid.ABC" }] }
    ∧ sendRun
        { statusCode := 200, headers := [(("Content-Type"), ("application/json"))]
          body := some (Except.ok ("\x7b\"messaging_product\":\"whatsapp\",\"contacts\":[\x7b\"input\":\"16505551234\",\"wa_id\":\"16505551234\"\x7d],\"messages\":[\x7b\"id\":\"wamid.ABC\"\x7d]\x7d")) }
      = (SendOutcome.ok
          { statusCode := 200, headers := [(("Content-Type"), ("application/json"))]
            message :=
              { product := "whatsapp"
                contacts := [{ input := "16505551234", waID := "16505551234" }]
                messages := [{ id := "wamid.ABC" }] } }, 1) :=
  ⟨rfl, rfl,
   c6_200_returns_response
     { statusCode := 200, headers := [(("Content-Type"), ("application/json"))]
       body := some (Except.ok ("\x7b\"messaging_product\":\"whatsapp\",\"contacts\":[\x7b\"input\":\"16505551234\",\"wa_id\":\"16505551234\"\x7d],\"messages\":[\x7b\"id\":\"wamid.ABC\"\x7d]\x7d")) }
     ("\x7b\"messaging_product\":\"whatsapp\",\"contacts\":[\x7b\"input\":\"16505551234\",\"wa_id\":\"16505551234\"\x7d],\"messages\":[\x7b\"id\":\"wamid.ABC\"\x7d]\x7d")
     { product := "whatsapp"
       contacts := [{ input := "16505551234", waID := "16505551234" }]
       messages := [{ id := "wamid.ABC" }] } rfl rfl rfl⟩

/-- Claim C8: for every ReactRequest, the envelope React serializes has
discriminant type `reaction`, messaging product `whatsapp`, the given
recipient in `to`, a reaction payload carrying the message id and emoji,
and no `recipient_type` field at all. -/
theorem c8_react_envelope_shape (req : ReactRequest) :
    jsonLookup (messageToJson (reactMessage req)) ("type") = some (Json.str ("reaction"))
    ∧ jsonLookup (messageToJson (reactMessage req)) ("messaging_product")
        = some (Json.str ("whatsapp"))
    ∧ jsonLookup (messageToJson (reactMessage req)) ("to") = some (Json.str req.recipient)
    ∧ jsonLookup (messageToJson (reactMessage req)) ("reaction")
        = some (Json.obj [(("message_id"), Json.str req.messageID), (("emoji"), Json.str req.emoji)])
    ∧ jsonLookup (messageToJson (reactMessage req)) ("recipient_type") = none :=
  ⟨rfl, rfl, rfl, rfl, rfl⟩

/-- Witness for C8: the concrete reaction request from the spec example. -/
theorem c8_react_envelope_shape_witness :
    jsonLookup (messageToJson (reactMessage
        { recipient := "123", messageID := "wamid.ABC", emoji := "😀" })) ("type")
      = some (Json.str ("reaction"))
    ∧ jsonLookup (messageToJson (reactMessage
        { recipient := "123", messageID := "wamid.ABC", emoji := "😀" })) ("recipient_type")
      = none :=
  ⟨(c8_react_envelope_shape { recipient := "123", messageID := "wamid.ABC", emoji := "😀" }).1,
   (c8_react_envelope_shape { recipient := "123", messageID := "wamid.ABC", emoji := "😀" }).2.2.2.2⟩

/-- Claim C9: calling Reply with a nil options argument returns the explicit
`options cannot be nil` error before any construction or dispatch: the
result does not depend on the transport, so no payload is built and nothing
is sent. -/
theorem c9_reply_nil_options_rejected (transport : String → GoHttpResponse) :
    replyRun none transport = Except.error ("options cannot be nil") := rfl

/-- Witness for C9: with a concrete transport the nil options error comes
back unchanged. -/
theorem c9_reply_nil_options_rejected_witness :
    replyRun none (fun _ => { statusCode := 200, headers := [], body := none })
      = Except.error ("options cannot be nil") :=
  c9_reply_nil_options_rejected (fun _ => { statusCode := 200, headers := [], body := none })

/-- Claim C1: the claim says the payload Reply builds stays structurally
valid JSON even when the recipient contains a double quote.  The code
interpolates the recipient into the JSON text without escaping, so for the
recipient `x"y` the produced bytes fail to parse: the model's
`json.Unmarshal` rejects them.  This theorem evaluates the code at the
failing input. -/
theorem c1_quote_in_recipient_corrupts_payload :
    unmarshalJson (buildReplyPayload c1ReplyParams) = none := rfl

/-- Claim C7 counterexample: the claim says leading/trailing slash variation
in the segments never changes the assembled path, but a trailing slash on
the endpoint segment is preserved by `url.JoinPath`, so the paths for
endpoint `messages/` and endpoint `messages` differ. -/
theorem c7_counterexample :
    requestURLPath (("").data) (("v15.0").data) (("123").data) (("messages/").data)
      ≠ requestURLPath (("").data) (("v15.0").data) (("123").data) (("messages").data) := by
  decide

/-- Claim C7 (amended): for simple segments (non-empty, slash-free, not dot
components) decorated with any number of redundant leading and trailing
slashes, the assembled URL path is the ordered slash-join of the base path
core, api version, sender id and endpoint — independent of all the slash
decoration except that a trailing slash on the endpoint segment is
preserved as a final slash of the path. -/
theorem c7_assembled_path_normalizes (cb cv cs ce : List Char)
    (hcb : simpleSeg cb) (hcv : simpleSeg cv) (hcs : simpleSeg cs) (hce : simpleSeg ce)
    (a1 b1 a2 b2 a3 b3 a4 b4 : Nat) :
    requestURLPath (slashes a1 ++ (cb ++ slashes b1)) (slashes a2 ++ (cv ++ slashes b2))
        (slashes a3 ++ (cs ++ slashes b3)) (slashes a4 ++ (ce ++ slashes b4))
      = '/' :: (cb ++ '/' :: (cv ++ '/' :: (cs ++ '/' ::
          (ce ++ (if b4 = 0 then [] else ['/']))))) := by
  obtain ⟨c0, cbt, rfl⟩ := List.exists_cons_of_ne_nil hcb.1
  have hc0 : c0 ≠ '/' := fun e => hcb.2.1 (by simp [e])
  cases a1 with
  | zero =>
    rw [requestURLPath, slashes_zero, List.nil_append]
    simp only [assembledPath]
    rw [urlJoinPath_decorated_relative (c0 :: cbt) cv cs ce hcb hcv hcs hce
      b1 a2 b2 a3 b3 a4 b4]
    simp [hc0]
  | succ k =>
    rw [requestURLPath]
    simp only [assembledPath]
    rw [urlJoinPath_decorated_rooted (c0 :: cbt) cv cs ce hcb hcv hcs hce
      k b1 a2 b2 a3 b3 a4 b4]
    simp

/-- Witness for the amended C7: a decorated concrete input normalizes to the
plain joined path. -/
theorem c7_assembled_path_normalizes_witness :
    simpleSeg (("base").data) ∧ simpleSeg (("v15.0").data) ∧ simpleSeg (("12345").data)
      ∧ simpleSeg (("messages").data)
      ∧ requestURLPath (slashes 1 ++ ((("base").data) ++ slashes 0))
          (slashes 0 ++ ((("v15.0").data) ++ slashes 1))
          (slashes 2 ++ ((("12345").data) ++ slashes 0))
          (slashes 0 ++ ((("messages").data) ++ slashes 0))
        = '/' :: ((("base").data) ++ '/' :: ((("v15.0").data) ++ '/' ::
            ((("12345").data) ++ '/' :: ((("messages").data)
              ++ (if (0 : Nat) = 0 then [] else ['/']))))) :=
  ⟨by decide, by decide, by decide, by decide,
   c7_assembled_path_normalizes (("base").data) (("v15.0").data) (("12345").data)
     (("messages").data) (by decide) (by decide) (by decide) (by decide) 1 0 0 1 2 0 0 0⟩

/-! ## Model sanity checks

Named evaluations pinning the behaviour of the JSON and path models on
concrete inputs, mirroring how the Go collaborators behave on them. -/

/-- Sanity: the unmarshal model parses a flat object. -/
theorem sanity_unmarshal_object :
    unmarshalJson ("\x7b\"code\":123,\"ok\":true\x7d")
      = some (Json.obj [(("code"), Json.num 123), (("ok"), Json.bool true)]) := rfl

/-- Sanity: the unmarshal model handles whitespace, arrays, negatives, null. -/
theorem sanity_unmarshal_nested :
    unmarshalJson (" \x7b\"a\":[1,-2,\"x\"],\"b\":null\x7d ")
      = some (Json.obj [(("a"), Json.arr [Json.num 1, Json.num (-2), Json.str ("x")]),
          (("b"), Json.null)]) := rfl

/-- Sanity: `json.Unmarshal` rejects trailing data while `Decoder.Decode`
reads the first value. -/
theorem sanity_trailing_data :
    unmarshalJson ("\x7b\"a\":1\x7d x") = none
    ∧ decodeFirstJson ("\x7b\"a\":1\x7d x") = some (Json.obj [(("a"), Json.num 1)]) :=
  ⟨rfl, rfl⟩

/-- Sanity: the render model serializes a small object. -/
theorem sanity_render_object :
    String.mk (renderJson (Json.obj [(("body"), Json.str ("hi"))]))
      = "\x7b\"body\":\"hi\"\x7d" := rfl

/-- Sanity: the `path.Clean` model collapses slashes and resolves dot
components the way the Go function documents. -/
theorem sanity_pathClean :
    String.mk (pathClean (("/a//b/./c/..").data)) = "/a/b"
    ∧ String.mk (pathClean (("a/../../b").data)) = "../b" :=
  ⟨rfl, rfl⟩

/-- Sanity: the assembled request path on concrete segment spellings. -/
theorem sanity_requestURLPath :
    String.mk (requestURLPath (("").data) (("v15.0").data) (("123").data) (("messages").data))
        = "/v15.0/123/messages"
    ∧ String.mk (requestURLPath (("/").data) (("/v15.0/").data) (("//123").data) (("messages").data))
        = "/v15.0/123/messages" :=
  ⟨rfl, rfl⟩

end WA
